import Mathlib

/-!
# Verification of the ytdl-core resolution/format/download pipeline

A shallow embedding, in Lean 4, of the parts of the `ytdl-core` TypeScript
code base that the specification's claims are about:

* `src/format-utils.ts` — format filtering, ranking and selection
  (`filterFormats`, `sortFormats`, `chooseFormat`);
* `src/sig.ts` — per-format URL deciphering (`setDownloadURL`,
  `decipherFormats`);
* `src/info.ts` — the multi-client resolution orchestrator (`retryFunc`,
  `getInfo` reconciliation, `getDashManifest`) and the playability preflight
  (`playError` from `src/utils.ts`);
* `src/index.ts` — chunked downloads (`downloadFromInfoCallback`);
* `src/cache.ts` — the TTL cache (`Cache.getOrSet`).

JavaScript-specific behaviour (truthiness, `parseInt` returning `NaN`,
`Array.prototype.sort` with a numeric comparator, `Object.assign` key
merging) is modelled explicitly by the `js*` helpers below.  Numbers that
can hold `NaN` are modelled as `Option Int` (`none` = `NaN`); strings whose
absence matters (`undefined`) are `Option String`.  Asynchronous code is
modelled by explicit state passing / event traces; promise rejection is
`Except`.
-/

namespace Ytdl

/-! ## JavaScript-semantics helpers -/

/-- Leading decimal-digit prefix of a character list, `none` when there is
no digit (the `NaN` case of `parseInt`). -/
def digitsPrefix (l : List Char) : Option Nat :=
  let ds := l.takeWhile (·.isDigit)
  if ds.isEmpty then none
  else some (ds.foldl (fun acc c => acc * 10 + (c.toNat - 48)) 0)

/-- JavaScript `parseInt` on a decimal string: skip leading whitespace,
optional sign, then the longest digit prefix; `none` models `NaN`. -/
def jsParseInt (s : String) : Option Int :=
  match s.data.dropWhile (·.isWhitespace) with
  | '-' :: rest => (digitsPrefix rest).map (fun n => -(n : Int))
  | '+' :: rest => (digitsPrefix rest).map (fun n => (n : Int))
  | l => (digitsPrefix l).map (fun n => (n : Int))

/-- Subtraction on JS numbers where `none` is `NaN`: any operation on `NaN`
yields `NaN`. -/
def jsSub (a b : Option Int) : Option Int :=
  match a, b with
  | some x, some y => some (x - y)
  | _, _ => none

/-- JS `String.prototype.includes`: substring containment. -/
def strIncludes (s sub : String) : Bool :=
  decide (sub.data <:+: s.data)

/-- JS `a || b` on possibly-`undefined` strings: the first truthy value,
otherwise the second operand. -/
def jsOrStr (a b : Option String) : Option String :=
  match a with
  | some s => if s ≠ "" then some s else b
  | none => b

/-- JS `Array.prototype.findIndex`: index of the first match, `-1` when
there is none. -/
def findIndexJs {α : Type} (p : α → Bool) (l : List α) : Int :=
  match l.findIdx? p with
  | some i => (i : Int)
  | none => -1

/-! ## URLs

The source manipulates URLs through `new URL(...)` / `searchParams.get` /
`searchParams.set` / `toString`.  We model a URL as a base plus an ordered
query-parameter association list; `get`/`set` act on the first binding of a
key. -/

structure Url where
  base : String
  params : List (String × String) := []
deriving DecidableEq, Repr

namespace Url

/-- `url.searchParams.get(k)`: value of the first binding of `k`, `none`
when the parameter is missing (JS `null`). -/
def getParam (u : Url) (k : String) : Option String :=
  (u.params.find? (fun p => p.1 == k)).map (·.2)

/-- `url.searchParams.set(k, v)`: replace the first binding of `k`, or
append one. -/
def setParam (u : Url) (k v : String) : Url :=
  if (u.params.find? (fun p => p.1 == k)).isSome then
    { u with params := u.params.map (fun p => if p.1 == k then (k, v) else p) }
  else
    { u with params := u.params ++ [(k, v)] }

/-- `url.toString()`: base plus serialized query. -/
def toStr (u : Url) : String :=
  if u.params.isEmpty then u.base
  else u.base ++ "?" ++ String.intercalate "&" (u.params.map (fun p => p.1 ++ "=" ++ p.2))

end Url

/-- JS truthiness of a possibly-absent URL-valued string field:
`undefined` and the empty string are falsy. -/
def urlTruthy (u : Option Url) : Bool :=
  match u with
  | none => false
  | some u => u.toStr ≠ ""

/-! ## The `VideoFormat` data model (`src/format-utils.ts`) -/

/-- `querystring.parse` of a `signatureCipher` / `cipher` field: the `s`,
`sp` and `url` components the decipher closure reads. -/
structure SigCipher where
  s : Option String := none
  sp : Option String := none
  url : Option Url := none
deriving DecidableEq, Repr

/-- The fields of `VideoFormat` that the verified code paths read.
Booleans that the source only ever uses under `!!` are plain `Bool`
(JS `undefined` and `false` are indistinguishable there). -/
structure VideoFormat where
  itag : Int
  url : Option Url := none
  mimeType : Option String := none
  bitrate : Option Int := none
  audioBitrate : Option Int := none
  width : Option Int := none
  height : Option Int := none
  fps : Option Int := none
  contentLength : Option String := none
  qualityLabel : Option String := none
  audioSampleRate : Option String := none
  averageBitrate : Option Int := none
  codecs : Option String := none
  hasVideo : Bool := false
  hasAudio : Bool := false
  isLive : Bool := false
  isHLS : Bool := false
  isDashMPD : Bool := false
  signatureCipher : Option SigCipher := none
  cipher : Option SigCipher := none
deriving DecidableEq, Repr

/-! ## `src/format-utils.ts`: ranking -/

def audioEncodingRanks : List String := ["mp4a", "mp3", "vorbis", "aac", "opus", "flac"]

def videoEncodingRanks : List String :=
  ["mp4v", "avc1", "Sorenson H.283", "MPEG-4 Visual", "VP8", "VP9", "H.264"]

/-- `format.bitrate || 0`. -/
def getVideoBitrate (f : VideoFormat) : Int := f.bitrate.getD 0

/-- `videoEncodingRanks.findIndex(enc => format.codecs?.includes(enc) || false)`. -/
def getVideoEncodingRank (f : VideoFormat) : Int :=
  findIndexJs (fun enc => match f.codecs with
    | some c => strIncludes c enc
    | none => false) videoEncodingRanks

/-- `format.audioBitrate || 0`. -/
def getAudioBitrate (f : VideoFormat) : Int := f.audioBitrate.getD 0

/-- `audioEncodingRanks.findIndex(enc => format.codecs?.includes(enc) || false)`. -/
def getAudioEncodingRank (f : VideoFormat) : Int :=
  findIndexJs (fun enc => match f.codecs with
    | some c => strIncludes c enc
    | none => false) audioEncodingRanks

/-- `sortFormatsBy`: first non-zero `fn(b) - fn(a)` over the key list,
else `0`.  Keys are JS numbers (`none` = `NaN`). -/
def sortFormatsBy (sortBy : List (VideoFormat → Option Int)) (a b : VideoFormat) : Option Int :=
  match sortBy with
  | [] => some 0
  | fn :: rest =>
    let res := jsSub (fn b) (fn a)
    if res ≠ some 0 then res else sortFormatsBy rest a b

/-- `sortFormatsByVideo`'s key list. -/
def videoSortKeys : List (VideoFormat → Option Int) :=
  [fun f => jsParseInt (f.qualityLabel.getD "0"),
   fun f => some (getVideoBitrate f),
   fun f => some (getVideoEncodingRank f)]

def sortFormatsByVideo (a b : VideoFormat) : Option Int :=
  sortFormatsBy videoSortKeys a b

/-- `sortFormatsByAudio`'s key list. -/
def audioSortKeys : List (VideoFormat → Option Int) :=
  [fun f => some (getAudioBitrate f),
   fun f => some (getAudioEncodingRank f)]

def sortFormatsByAudio (a b : VideoFormat) : Option Int :=
  sortFormatsBy audioSortKeys a b

/-- `parseInt(format.qualityLabel || '0') || 0` (NaN collapses to 0). -/
def qualityLabelNum (f : VideoFormat) : Int :=
  (jsParseInt (f.qualityLabel.getD "0")).getD 0

/-- `parseInt(format.contentLength || '0') > 0` (`NaN > 0` is false). -/
def contentLengthPositive (f : VideoFormat) : Bool :=
  match jsParseInt (f.contentLength.getD "0") with
  | some v => decide (v > 0)
  | none => false

/-- JS unary `+` on a boolean. -/
def boolToInt (b : Bool) : Int := if b then 1 else 0

/-- `sortFormats`'s key list (`src/format-utils.ts:134`). -/
def overallSortKeys : List (VideoFormat → Option Int) :=
  [fun f => some (boolToInt f.isHLS),
   fun f => some (boolToInt f.isDashMPD),
   fun f => some (boolToInt (contentLengthPositive f)),
   fun f => some (boolToInt (f.hasVideo && f.hasAudio)),
   fun f => some (boolToInt f.hasVideo),
   fun f => some (qualityLabelNum f),
   fun f => some (getVideoBitrate f),
   fun f => some (getAudioBitrate f),
   fun f => some (getVideoEncodingRank f),
   fun f => some (getAudioEncodingRank f)]

def sortFormats (a b : VideoFormat) : Option Int :=
  sortFormatsBy overallSortKeys a b

/-- `formats.sort(cmp)`: a stable sort placing `a` before `b` when
`cmp a b ≤ 0`; a `NaN` comparator result keeps nothing ordered (modelled
as "not ≤"). -/
def jsSortLe (cmp : VideoFormat → VideoFormat → Option Int) (a b : VideoFormat) : Bool :=
  match cmp a b with
  | some r => decide (r ≤ 0)
  | none => false

/-- Stable insertion of `a` into `l`: before the first element it compares
`≤` to. -/
def jsInsert {α : Type} (le : α → α → Bool) (a : α) : List α → List α
  | [] => [a]
  | b :: l => if le a b then a :: b :: l else b :: jsInsert le a l

/-- `Array.prototype.sort` is required to be a stable sort; we model it as
stable insertion sort over the comparator-induced `≤`. -/
def jsSortList {α : Type} (le : α → α → Bool) : List α → List α
  | [] => []
  | a :: l => jsInsert le a (jsSortList le l)

def jsSort (cmp : VideoFormat → VideoFormat → Option Int) (l : List VideoFormat) : List VideoFormat :=
  jsSortList (jsSortLe cmp) l

/-! ## `src/format-utils.ts`: filtering and selection -/

/-- The `FormatFilter` union: the named filters plus a custom predicate. -/
inductive FormatFilter where
  | audioandvideo | videoandaudio | video | videoonly | audio | audioonly
  | custom (fn : VideoFormat → Bool)

/-- `filterFormats`: the named predicate (or the custom one), with the
unconditional `!!format.url` guard. -/
def filterFormats (formats : List VideoFormat) (filter : FormatFilter) : List VideoFormat :=
  let fn : VideoFormat → Bool :=
    match filter with
    | .videoandaudio | .audioandvideo => fun f => f.hasVideo && f.hasAudio
    | .video => fun f => f.hasVideo
    | .videoonly => fun f => f.hasVideo && !f.hasAudio
    | .audio => fun f => f.hasAudio
    | .audioonly => fun f => f.hasAudio && !f.hasVideo
    | .custom p => p
  formats.filter (fun f => urlTruthy f.url && fn f)

/-- `options.quality`: `string | number | string[] | number[]`. -/
inductive Quality where
  | str (s : String)
  | num (n : Int)
  | strList (l : List String)
  | numList (l : List Int)
deriving DecidableEq, Repr

/-- Template-literal rendering `` `${quality}` `` (arrays join with `,`). -/
def qualityToString : Quality → String
  | .str s => s
  | .num n => toString n
  | .strList l => String.intercalate "," l
  | .numList l => String.intercalate "," (l.map toString)

/-- `options.quality || 'highest'`: falsy qualities (absent, `''`, `0`)
fall back to `'highest'`; arrays (even empty) are truthy. -/
def effectiveQuality : Option Quality → Quality
  | none => .str "highest"
  | some (.str "") => .str "highest"
  | some (.num 0) => .str "highest"
  | some q => q

structure FormatOptions where
  quality : Option Quality := none
  filter : Option FormatFilter := none
  format : Option VideoFormat := none

/-- `` `${format.itag}` === `${itag}` `` lookup. -/
def getFormatByItagStr (formats : List VideoFormat) (itagStr : String) : Option VideoFormat :=
  formats.find? (fun f => toString f.itag == itagStr)

/-- `getFormatByQuality`: single itag, or first itag of a list that has a
match (a falsy found itag — `0` or `''` — yields `undefined`). -/
def getFormatByQuality (quality : Quality) (formats : List VideoFormat) : Option VideoFormat :=
  match quality with
  | .str s => getFormatByItagStr formats s
  | .num n => getFormatByItagStr formats (toString n)
  | .strList l =>
    match l.find? (fun q => (getFormatByItagStr formats q).isSome) with
    | some q => if q ≠ "" then getFormatByItagStr formats q else none
    | none => none
  | .numList l =>
    match l.find? (fun q => (getFormatByItagStr formats (toString q)).isSome) with
    | some q => if q ≠ 0 then getFormatByItagStr formats (toString q) else none
    | none => none

/-- The `'highestaudio'` case body: isolate `'audio'` formats, sort by the
audio comparator, keep the ties with the best, and take the first with the
minimal video quality label. -/
def highestAudioPick (formats : List VideoFormat) : Option VideoFormat :=
  let fs := jsSort sortFormatsByAudio (filterFormats formats .audio)
  match fs.head? with
  | none => none
  | some bestAudioFormat =>
    let ties := fs.filter (fun f => sortFormatsByAudio bestAudioFormat f == some 0)
    let worstVideoQuality := (ties.map qualityLabelNum).min?
    ties.find? (fun f => some (qualityLabelNum f) == worstVideoQuality)

/-- The `'highestvideo'` case body: isolate `'video'` formats, sort by the
video comparator, keep the ties, and take the first with the minimal audio
bitrate. -/
def highestVideoPick (formats : List VideoFormat) : Option VideoFormat :=
  let fs := jsSort sortFormatsByVideo (filterFormats formats .video)
  match fs.head? with
  | none => none
  | some bestVideoFormat =>
    let ties := fs.filter (fun f => sortFormatsByVideo bestVideoFormat f == some 0)
    let worstAudioQuality := (ties.map (fun f => f.audioBitrate.getD 0)).min?
    ties.find? (fun f => some (f.audioBitrate.getD 0) == worstAudioQuality)

/-- The `switch (quality)` body of `chooseFormat`: picks a candidate from
the (already filter-narrowed) list, `none` when no format matches. -/
def chooseByQuality (quality : Quality) (formats : List VideoFormat) : Option VideoFormat :=
  match quality with
  | .str s =>
    if s = "highest" then formats.head?
    else if s = "lowest" then formats.getLast?
    else if s = "highestaudio" then highestAudioPick formats
    else if s = "lowestaudio" then
      (jsSort sortFormatsByAudio (filterFormats formats .audio)).getLast?
    else if s = "highestvideo" then highestVideoPick formats
    else if s = "lowestvideo" then
      (jsSort sortFormatsByVideo (filterFormats formats .video)).getLast?
    else getFormatByQuality (.str s) formats
  | q => getFormatByQuality q formats

/-- The candidate-narrowing steps of `chooseFormat`: the optional filter,
then (when any candidate is HLS) dropping non-HLS live formats. -/
def narrowFormats (formats : List VideoFormat) (filter : Option FormatFilter) :
    List VideoFormat :=
  let formats1 :=
    match filter with
    | some flt => filterFormats formats flt
    | none => formats
  if formats1.any (·.isHLS) then formats1.filter (fun f => f.isHLS || !f.isLive)
  else formats1

/-- `chooseFormat`: explicit format pass-through, optional filter, HLS
preference for live lists, then the quality switch; `Except.error` models
the thrown errors. -/
def chooseFormat (formats : List VideoFormat) (options : FormatOptions) :
    Except String VideoFormat :=
  match options.format with
  | some f =>
    if urlTruthy f.url then .ok f
    else .error "Invalid format given, did you use `ytdl.getInfo()`?"
  | none =>
    let formats2 := narrowFormats formats options.filter
    let quality := effectiveQuality options.quality
    match chooseByQuality quality formats2 with
    | some f => .ok f
    | none => .error ("No such format found: " ++ qualityToString quality)

/-! ## Membership facts about format selection -/

theorem mem_jsInsert {α : Type} {le : α → α → Bool} {a x : α} {l : List α} :
    x ∈ jsInsert le a l ↔ x = a ∨ x ∈ l := by
  induction l with
  | nil => simp [jsInsert]
  | cons b l ih =>
    by_cases h : le a b = true
    · simp [jsInsert, h]
    · simp only [jsInsert, if_neg h, List.mem_cons, ih]
      tauto

theorem mem_jsSortList {α : Type} {le : α → α → Bool} {x : α} {l : List α} :
    x ∈ jsSortList le l ↔ x ∈ l := by
  induction l with
  | nil => simp [jsSortList]
  | cons a l ih => simp [jsSortList, mem_jsInsert, ih]

theorem mem_of_mem_jsSort {cmp : VideoFormat → VideoFormat → Option Int}
    {l : List VideoFormat} {f : VideoFormat} (h : f ∈ jsSort cmp l) : f ∈ l :=
  mem_jsSortList.mp h

theorem mem_of_mem_filterFormats {formats : List VideoFormat} {flt : FormatFilter}
    {f : VideoFormat} (h : f ∈ filterFormats formats flt) : f ∈ formats := by
  unfold filterFormats at h
  exact List.mem_of_mem_filter h

theorem mem_of_getFormatByItagStr {formats : List VideoFormat} {s : String}
    {f : VideoFormat} (h : getFormatByItagStr formats s = some f) : f ∈ formats :=
  List.mem_of_find?_eq_some h

theorem mem_of_getFormatByQuality {q : Quality} {formats : List VideoFormat}
    {f : VideoFormat} (h : getFormatByQuality q formats = some f) : f ∈ formats := by
  cases q with
  | str s => exact mem_of_getFormatByItagStr h
  | num n => exact mem_of_getFormatByItagStr h
  | strList l =>
    simp only [getFormatByQuality] at h
    split at h
    · split at h
      · exact mem_of_getFormatByItagStr h
      · exact absurd h (by simp)
    · exact absurd h (by simp)
  | numList l =>
    simp only [getFormatByQuality] at h
    split at h
    · split at h
      · exact mem_of_getFormatByItagStr h
      · exact absurd h (by simp)
    · exact absurd h (by simp)

theorem mem_of_highestAudioPick {formats : List VideoFormat} {f : VideoFormat}
    (h : highestAudioPick formats = some f) : f ∈ formats := by
  simp only [highestAudioPick] at h
  split at h
  · exact absurd h (by simp)
  · exact mem_of_mem_filterFormats
      (mem_of_mem_jsSort (List.mem_of_mem_filter (List.mem_of_find?_eq_some h)))

theorem mem_of_highestVideoPick {formats : List VideoFormat} {f : VideoFormat}
    (h : highestVideoPick formats = some f) : f ∈ formats := by
  simp only [highestVideoPick] at h
  split at h
  · exact absurd h (by simp)
  · exact mem_of_mem_filterFormats
      (mem_of_mem_jsSort (List.mem_of_mem_filter (List.mem_of_find?_eq_some h)))

theorem mem_of_chooseByQuality {q : Quality} {formats : List VideoFormat}
    {f : VideoFormat} (h : chooseByQuality q formats = some f) : f ∈ formats := by
  cases q with
  | str s =>
    simp only [chooseByQuality] at h
    split_ifs at h
    · exact List.mem_of_mem_head? h
    · exact List.mem_of_getLast?_eq_some h
    · exact mem_of_highestAudioPick h
    · exact mem_of_mem_filterFormats (mem_of_mem_jsSort (List.mem_of_getLast?_eq_some h))
    · exact mem_of_highestVideoPick h
    · exact mem_of_mem_filterFormats (mem_of_mem_jsSort (List.mem_of_getLast?_eq_some h))
    · exact mem_of_getFormatByQuality h
  | num n =>
    simp only [chooseByQuality] at h
    exact mem_of_getFormatByQuality h
  | strList l =>
    simp only [chooseByQuality] at h
    exact mem_of_getFormatByQuality h
  | numList l =>
    simp only [chooseByQuality] at h
    exact mem_of_getFormatByQuality h

theorem mem_of_mem_narrowFormats {formats : List VideoFormat} {flt : Option FormatFilter}
    {f : VideoFormat} (h : f ∈ narrowFormats formats flt) : f ∈ formats := by
  simp only [narrowFormats] at h
  split at h
  · cases flt with
    | some flt0 => exact mem_of_mem_filterFormats (List.mem_of_mem_filter h)
    | none => exact List.mem_of_mem_filter h
  · cases flt with
    | some flt0 => exact mem_of_mem_filterFormats h
    | none => exact h

/-- C2: for every format list and every quality mode (string, itag, or
itag list), `chooseFormat(formats, options)` with no explicit
`options.format` either returns a format that is an element of the input
list, or fails with the descriptive `No such format found: <quality>`
error; it never fabricates a format. -/
theorem chooseFormat_mem_or_no_such_format (formats : List VideoFormat)
    (options : FormatOptions) (hfmt : options.format = none) :
    (∃ f, chooseFormat formats options = .ok f ∧ f ∈ formats) ∨
      chooseFormat formats options =
        .error ("No such format found: " ++ qualityToString (effectiveQuality options.quality)) := by
  simp only [chooseFormat, hfmt]
  cases hc : chooseByQuality (effectiveQuality options.quality)
      (narrowFormats formats options.filter) with
  | some f =>
    exact Or.inl ⟨f, by simp [hc], mem_of_mem_narrowFormats (mem_of_chooseByQuality hc)⟩
  | none => exact Or.inr (by simp [hc])

/-- Witness for C2 at a concrete list and quality. -/
theorem chooseFormat_mem_or_no_such_format_witness :
    (∃ f, chooseFormat [{ itag := 18, url := some { base := "https://v" } }]
        { quality := some (.str "lowest") } = .ok f ∧
        f ∈ [({ itag := 18, url := some { base := "https://v" } } : VideoFormat)]) ∨
      chooseFormat [{ itag := 18, url := some { base := "https://v" } }]
        { quality := some (.str "lowest") } = .error ("No such format found: " ++
          qualityToString (effectiveQuality (some (.str "lowest")))) :=
  chooseFormat_mem_or_no_such_format _ _ rfl

/-- C9: every format returned by `filterFormats` has a present, non-empty
`url` — the `!!format.url` guard applies to the named filters and custom
predicates alike, so url-less formats are excluded even when they satisfy
the filter predicate. -/
theorem filterFormats_url_nonempty (formats : List VideoFormat) (filter : FormatFilter)
    (f : VideoFormat) (h : f ∈ filterFormats formats filter) :
    urlTruthy f.url = true := by
  unfold filterFormats at h
  exact (Bool.and_eq_true_iff.mp (List.mem_filter.mp h).2).1

/-- A concrete audio format used by witnesses. -/
def witnessAudioFormat : VideoFormat :=
  { itag := 140, url := some { base := "https://a" }, hasAudio := true }

/-- Witness for C9: a format with a url passing the `'audio'` filter. -/
theorem filterFormats_url_nonempty_witness :
    witnessAudioFormat ∈ filterFormats [witnessAudioFormat] FormatFilter.audio ∧
      urlTruthy witnessAudioFormat.url = true :=
  ⟨by decide,
    filterFormats_url_nonempty [witnessAudioFormat] FormatFilter.audio witnessAudioFormat
      (by decide)⟩

/-! ## The C6 scenario -/

/-- The spec scenario's first format, `{itag:18, hasVideo:true, hasAudio:true}`,
given a url so that it survives `filterFormats`' url guard. -/
def scenarioFormat18 : VideoFormat :=
  { itag := 18, url := some { base := "https://video18" }, hasVideo := true, hasAudio := true }

/-- The spec scenario's second format, `{itag:140, hasVideo:false, hasAudio:true}`,
given a url so that it survives `filterFormats`' url guard. -/
def scenarioFormat140 : VideoFormat :=
  { itag := 140, url := some { base := "https://audio140" }, hasVideo := false, hasAudio := true }

/-- C6 counterexample: on the spec's literal scenario list (no `url`
fields) `'highestaudio'` throws `No such format found`, and with urls
added so both formats survive the url guard it returns the itag-18
format — in neither case itag 140.  Both formats pass the `'audio'`
isolation filter (it requires `hasAudio`, not audio-only), tie on every
audio ranking key (no `audioBitrate`/`codecs` present) and on the
video-quality tie-break (no `qualityLabel`), so the first format wins. -/
theorem highestaudio_scenario_counterexample :
    chooseFormat [{ itag := 18, hasVideo := true, hasAudio := true },
        { itag := 140, hasVideo := false, hasAudio := true }]
        { quality := some (.str "highestaudio") } =
      .error "No such format found: highestaudio" ∧
    chooseFormat [scenarioFormat18, scenarioFormat140]
        { quality := some (.str "highestaudio") } = .ok scenarioFormat18 ∧
      scenarioFormat18.itag = 18 := by
  refine ⟨rfl, rfl, rfl⟩

/-- C6 amended: on the scenario list `'highestaudio'` returns the itag-18
format (first after an all-way tie); itag 140 is returned once it actually
outranks on the audio dimension, e.g. carrying its real `audioBitrate` of
128. -/
theorem highestaudio_scenario_amended :
    chooseFormat [scenarioFormat18, scenarioFormat140]
        { quality := some (.str "highestaudio") } = .ok scenarioFormat18 ∧
      chooseFormat [scenarioFormat18, { scenarioFormat140 with audioBitrate := some 128 }]
        { quality := some (.str "highestaudio") } =
        .ok { scenarioFormat140 with audioBitrate := some 128 } := by
  constructor
  · rfl
  · rfl

/-! ## `retryFunc` (`src/info.ts:150`)

The retried callable is modelled as a function from the attempt index to
its outcome; sleeping is modelled by recording the computed wait in a
trace.  The loop counter pair `(currentTry, maxRetries)` is carried as
`currentTry` plus `remaining = maxRetries - currentTry`, which makes the
recursion structural. -/

/-- An error thrown by an attempt; `statusCode` is `none` for failures
that carry no HTTP status (network faults, parse errors, …). -/
structure FetchError where
  statusCode : Option Int := none
deriving DecidableEq, Repr

/-- `err?.statusCode < 500`: JS `<` against `undefined` is `false`, so
only errors that carry a status below 500 short-circuit the retry loop. -/
def isImmediatelyFatal (e : FetchError) : Bool :=
  match e.statusCode with
  | some c => decide (c < 500)
  | none => false

/-- The `while (currentTry <= options.maxRetries)` loop of `retryFunc`:
on failure, rethrow when the error is fatal or the budget is exhausted,
otherwise record `Math.min(++currentTry * inc, max)` and go round again. -/
def retryFuncAux {α : Type} (func : ℕ → Except FetchError α) (inc maxB : ℕ) :
    (currentTry remaining : ℕ) → Except FetchError α × List ℕ
  | ct, remaining =>
    match func ct with
    | .ok r => (.ok r, [])
    | .error e =>
      if isImmediatelyFatal e then (.error e, [])
      else
        match remaining with
        | 0 => (.error e, [])
        | r + 1 =>
          let wait := min ((ct + 1) * inc) maxB
          let rest := retryFuncAux func inc maxB (ct + 1) r
          (rest.1, wait :: rest.2)

/-- `retryFunc(func, args, options)`: result together with the trace of
backoff waits (one entry per retry actually performed). -/
def retryFunc {α : Type} (func : ℕ → Except FetchError α) (maxRetries inc maxB : ℕ) :
    Except FetchError α × List ℕ :=
  retryFuncAux func inc maxB 0 maxRetries

theorem retryFuncAux_waits_length {α : Type} (func : ℕ → Except FetchError α)
    (inc maxB : ℕ) : ∀ ct remaining,
    (retryFuncAux func inc maxB ct remaining).2.length ≤ remaining := by
  intro ct remaining
  induction remaining generalizing ct with
  | zero =>
    unfold retryFuncAux
    cases func ct with
    | ok r => simp
    | error e => by_cases hf : isImmediatelyFatal e = true <;> simp [hf]
  | succ r ih =>
    unfold retryFuncAux
    cases func ct with
    | ok v => simp
    | error e =>
      by_cases hf : isImmediatelyFatal e = true
      · simp [hf]
      · simpa [hf] using ih (ct + 1)

theorem retryFuncAux_waits_schedule {α : Type} (func : ℕ → Except FetchError α)
    (inc maxB : ℕ) : ∀ ct remaining,
    (retryFuncAux func inc maxB ct remaining).2 =
      (List.range (retryFuncAux func inc maxB ct remaining).2.length).map
        (fun i => min ((ct + (i + 1)) * inc) maxB) := by
  intro ct remaining
  induction remaining generalizing ct with
  | zero =>
    unfold retryFuncAux
    cases func ct with
    | ok r => simp
    | error e => by_cases hf : isImmediatelyFatal e = true <;> simp [hf]
  | succ r ih =>
    unfold retryFuncAux
    cases func ct with
    | ok v => simp
    | error e =>
      by_cases hf : isImmediatelyFatal e = true
      · simp [hf]
      · simp only [hf, if_neg, Bool.false_eq_true, if_false]
        rw [List.length_cons, List.range_succ_eq_map, List.map_cons, List.map_map]
        rw [List.cons.injEq]
        refine ⟨by simp, ?_⟩
        rw [ih (ct + 1)]
        rw [List.length_map, List.length_range]
        apply List.map_congr_left
        intro i _
        simp only [Function.comp_apply]
        have harg : ct + 1 + (i + 1) = ct + (i + 1 + 1) := by omega
        rw [harg]

/-- C4 counterexample: an error carrying no status code at all (so not a
5xx-class server failure) is retried the full three times rather than
rethrown immediately, and the three backoff waits grow linearly
(`500, 1000, 1500`), not exponentially. -/
theorem retryFunc_counterexample :
    retryFunc (fun _ => (.error { statusCode := none } : Except FetchError ℕ)) 3 500 5000 =
      (.error { statusCode := none }, [500, 1000, 1500]) ∧
      isImmediatelyFatal { statusCode := none } = false ∧
      (1000 = 2 * 500 ∧ 1500 ≠ 2 * 1000) := by
  refine ⟨rfl, rfl, rfl, by decide⟩

/-- C4 amended: `retryFunc` rethrows immediately exactly the errors whose
numeric `statusCode` is below 500; every other failure (5xx **or no
status code at all**) is retried, with a bounded budget of `maxRetries`
retries and *linear* backoff `min((try) * inc, max)` capped at the
configured maximum. -/
theorem retryFunc_amended :
    (∀ (α : Type) (func : ℕ → Except FetchError α) (mr inc maxB : ℕ) (e : FetchError),
        func 0 = .error e → isImmediatelyFatal e = true →
        retryFunc func mr inc maxB = (.error e, [])) ∧
    (∀ (α : Type) (func : ℕ → Except FetchError α) (mr inc maxB : ℕ) (e : FetchError),
        func 0 = .error e → isImmediatelyFatal e = false → 1 ≤ mr →
        (retryFunc func mr inc maxB).2 ≠ []) ∧
    (∀ (α : Type) (func : ℕ → Except FetchError α) (mr inc maxB : ℕ),
        (retryFunc func mr inc maxB).2.length ≤ mr) ∧
    (∀ (α : Type) (func : ℕ → Except FetchError α) (mr inc maxB : ℕ),
        ∀ w ∈ (retryFunc func mr inc maxB).2, w ≤ maxB) ∧
    (∀ (α : Type) (func : ℕ → Except FetchError α) (mr inc maxB : ℕ),
        (retryFunc func mr inc maxB).2 =
          (List.range (retryFunc func mr inc maxB).2.length).map
            (fun i => min ((i + 1) * inc) maxB)) := by
  refine ⟨?_, ?_, ?_, ?_, ?_⟩
  · intro α func mr inc maxB e h0 hfatal
    unfold retryFunc retryFuncAux
    rw [h0]
    simp [hfatal]
  · intro α func mr inc maxB e h0 hfatal hmr
    match mr, hmr with
    | r + 1, _ =>
      unfold retryFunc retryFuncAux
      rw [h0]
      simp [hfatal]
  · intro α func mr inc maxB
    exact retryFuncAux_waits_length func inc maxB 0 mr
  · intro α func mr inc maxB w hw
    unfold retryFunc at hw
    rw [retryFuncAux_waits_schedule func inc maxB 0 mr] at hw
    obtain ⟨i, _, rfl⟩ := List.mem_map.mp hw
    exact min_le_right _ _
  · intro α func mr inc maxB
    have h := retryFuncAux_waits_schedule func inc maxB 0 mr
    unfold retryFunc
    simpa using h

/-- Witness for C4: a 404 (`statusCode < 500`) is rethrown immediately
with no retries, and an always-failing 503 call stays within the retry
budget. -/
theorem retryFunc_amended_witness :
    retryFunc (fun _ => (.error { statusCode := some 404 } : Except FetchError ℕ)) 3 500 5000 =
      (.error { statusCode := some 404 }, []) ∧
      (retryFunc (fun _ => (.error { statusCode := some 503 } : Except FetchError ℕ))
          3 500 5000).2.length ≤ 3 :=
  ⟨retryFunc_amended.1 ℕ _ 3 500 5000 { statusCode := some 404 } rfl (by decide),
   retryFunc_amended.2.2.1 ℕ _ 3 500 5000⟩

/-! ## `src/sig.ts`: `setDownloadURL` and `decipherFormats`

A compiled `vm.Script` run through `runInNewContext` is platform-supplied
code mapping the single input binding to a string; it may throw, which we
model as `Except.error`. -/

def Script : Type := String → Except String String

/-- The `decipher` closure of `setDownloadURL`: `querystring.parse` the
cipher string (modelled as the pre-split `SigCipher`), return `args.url`
unchanged when `args.s` is falsy, otherwise run the decipher script on the
signature and set the `args.sp || 'sig'` parameter.  Result `none` models
the JS `undefined` that `decipher` returns when `args.url` is absent. -/
def decipherUrl (decipherScript : Script) (c : SigCipher) : Except String (Option Url) :=
  match c.s with
  | none => .ok c.url
  | some s =>
    if s = "" then .ok c.url
    else
      match c.url with
      | none => .error "TypeError: Invalid URL"
      | some u => do
        let sigVal ← decipherScript s
        pure (some (u.setParam ((jsOrStr c.sp (some "sig")).getD "sig") sigVal))

/-- The `nTransform` closure of `setDownloadURL`: return the url unchanged
when it has no (truthy) `n` parameter or there is no n-transform script,
otherwise run the script — note there is **no** catch around
`runInNewContext`, so a throwing script propagates. -/
def nTransform (nTransformScript : Option Script) (u : Url) : Except String Url :=
  match u.getParam "n" with
  | none => .ok u
  | some n =>
    if n = "" then .ok u
    else
      match nTransformScript with
      | none => .ok u
      | some script => do
        let n2 ← script n
        pure (u.setParam "n" n2)

/-- `format.signatureCipher || format.cipher` (present cipher strings are
non-empty, so presence is truthiness). -/
def jsOrCipher (a b : Option SigCipher) : Option SigCipher :=
  match a with
  | some c => some c
  | none => b

/-- The ciphered-url branch of `setDownloadURL` (`cipher = !format.url`). -/
def setDownloadURLCipherBranch (dec : Script) (nTransformScript : Option Script)
    (format : VideoFormat) : Except String VideoFormat :=
  match jsOrCipher format.signatureCipher format.cipher with
  | none => .ok format
  | some c => do
    let deciphered ← decipherUrl dec c
    match deciphered with
    | none => Except.error "TypeError: Invalid URL"
    | some u => do
      let u2 ← nTransform nTransformScript u
      pure { format with url := some u2, signatureCipher := none, cipher := none }

/-- `setDownloadURL(format, decipherScript, nTransformScript)`: no-op when
the decipher script is absent; otherwise apply `nTransform` to a direct
url, or `decipher` + `nTransform` to a ciphered one, writing the result
into `format.url` and deleting the cipher fields. -/
def setDownloadURL (decipherScript nTransformScript : Option Script)
    (format : VideoFormat) : Except String VideoFormat :=
  match decipherScript with
  | none => .ok format
  | some dec =>
    match format.url with
    | some u =>
      if u.toStr = "" then setDownloadURLCipherBranch dec nTransformScript format
      else do
        let u2 ← nTransform nTransformScript u
        pure { format with url := some u2, signatureCipher := none, cipher := none }
    | none => setDownloadURLCipherBranch dec nTransformScript format

/-- JS object bracket assignment `obj[k] = v` on a string-keyed record:
overwrite the binding in place or append a new one. -/
def recordSet {κ ν : Type} [BEq κ] (r : List (κ × ν)) (k : κ) (v : ν) : List (κ × ν) :=
  if (r.find? (fun p => p.1 == k)).isSome then
    r.map (fun p => if p.1 == k then (k, v) else p)
  else r ++ [(k, v)]

/-- One `forEach` iteration of `decipherFormats`: apply `setDownloadURL`
and record the format under its url when it has one. -/
def decipherStep (decipherScript nTransformScript : Option Script)
    (acc : List (Url × VideoFormat)) (format : VideoFormat) :
    Except String (List (Url × VideoFormat)) :=
  match setDownloadURL decipherScript nTransformScript format with
  | .error e => .error e
  | .ok f2 =>
    match f2.url with
    | some u => .ok (recordSet acc u f2)
    | none => .ok acc

/-- `decipherFormats`: run `setDownloadURL` over every format (the
`forEach` aborts — the returned promise rejects — if any call throws) and
key the url-carrying results by their url. -/
def decipherFormats (formats : List VideoFormat)
    (decipherScript nTransformScript : Option Script) :
    Except String (List (Url × VideoFormat)) :=
  formats.foldlM (decipherStep decipherScript nTransformScript) []

/-- An n-transform script whose execution throws. -/
def throwingNScript : Script := fun _ => .error "n-transform exec failure"

/-- A decipher script that succeeds (identity on the signature). -/
def identityDecScript : Script := fun s => .ok s

/-- A url carrying an `n` parameter. -/
def videoNUrl : Url := { base := "https://video", params := [("n", "abc")] }

/-- A url with no `n` parameter. -/
def audioUrl : Url := { base := "https://audio" }

/-- A direct-url format whose url carries an `n` parameter. -/
def fmtWithN : VideoFormat :=
  { itag := 1, url := some videoNUrl, mimeType := some "video/mp4" }

/-- A second, unrelated format in the same list. -/
def fmtPlain : VideoFormat :=
  { itag := 2, url := some audioUrl, mimeType := some "audio/mp4" }

/-- C3 counterexample: when executing the n-transform script throws, the
`n` parameter is *not* left unmodified — `setDownloadURL` fails for that
format, and `decipherFormats` on a two-format list rejects as a whole
(both formats are lost), because nothing catches the execution fault. -/
theorem setDownloadURL_nthrow_counterexample :
    setDownloadURL (some identityDecScript) (some throwingNScript) fmtWithN =
      .error "n-transform exec failure" ∧
    decipherFormats [fmtWithN, fmtPlain] (some identityDecScript) (some throwingNScript) =
      .error "n-transform exec failure" :=
  ⟨rfl, rfl⟩

/-- A throwing `setDownloadURL` call on any list member aborts the whole
`decipherFormats` fold, whatever has been accumulated so far. -/
theorem decipherFormats_error_of_mem_error (dec nScript : Option Script) :
    ∀ (formats : List VideoFormat) (acc : List (Url × VideoFormat)),
    (∃ f ∈ formats, ∃ msg, setDownloadURL dec nScript f = .error msg) →
    ∃ msg2, formats.foldlM (decipherStep dec nScript) acc = Except.error msg2 := by
  intro formats
  induction formats with
  | nil =>
    intro acc h
    obtain ⟨f, hf, _⟩ := h
    exact absurd hf (List.not_mem_nil f)
  | cons g rest ih =>
    intro acc h
    rw [List.foldlM_cons]
    cases hg : setDownloadURL dec nScript g with
    | error m =>
      refine ⟨m, ?_⟩
      have hstep : decipherStep dec nScript acc g = .error m := by
        simp only [decipherStep, hg]
      rw [hstep]
      rfl
    | ok f2 =>
      obtain ⟨f, hf, msg, herr⟩ := h
      rcases List.mem_cons.mp hf with rfl | hrest
      · rw [hg] at herr
        exact absurd herr (by simp)
      · cases hu : f2.url with
        | some u =>
          have hstep : decipherStep dec nScript acc g = .ok (recordSet acc u f2) := by
            simp only [decipherStep, hg, hu]
          rw [hstep]
          exact ih (recordSet acc u f2) ⟨f, hrest, msg, herr⟩
        | none =>
          have hstep : decipherStep dec nScript acc g = .ok acc := by
            simp only [decipherStep, hg, hu]
          rw [hstep]
          exact ih acc ⟨f, hrest, msg, herr⟩

/-- C3 amended: `setDownloadURL` leaves the url (hence its `n` parameter)
unmodified when the n-transform script is absent or when the url has no
`n` parameter; but when executing the script throws, `setDownloadURL`
propagates the exception and `decipherFormats` fails the entire
resolution whenever any format's processing throws. -/
theorem setDownloadURL_n_amended :
    (∀ (dec : Script) (f : VideoFormat) (u : Url), f.url = some u → u.toStr ≠ "" →
        setDownloadURL (some dec) none f =
          .ok { f with url := some u, signatureCipher := none, cipher := none }) ∧
    (∀ (dec nScript : Script) (f : VideoFormat) (u : Url), f.url = some u → u.toStr ≠ "" →
        u.getParam "n" = none →
        setDownloadURL (some dec) (some nScript) f =
          .ok { f with url := some u, signatureCipher := none, cipher := none }) ∧
    (∀ (dec nScript : Script) (f : VideoFormat) (u : Url) (n msg : String),
        f.url = some u → u.toStr ≠ "" → u.getParam "n" = some n → n ≠ "" →
        nScript n = .error msg →
        setDownloadURL (some dec) (some nScript) f = .error msg) ∧
    (∀ (formats : List VideoFormat) (dec nScript : Option Script),
        (∃ f ∈ formats, ∃ msg, setDownloadURL dec nScript f = .error msg) →
        ∃ msg2, decipherFormats formats dec nScript = .error msg2) := by
  have hnone : ∀ (u : Url), nTransform none u = .ok u := by
    intro u
    unfold nTransform
    cases u.getParam "n" with
    | none => rfl
    | some n => by_cases h : n = "" <;> simp [h]
  refine ⟨?_, ?_, ?_, ?_⟩
  · intro dec f u hu htruthy
    unfold setDownloadURL
    rw [hu]
    simp [htruthy, hnone u]
  · intro dec nScript f u hu htruthy hn
    unfold setDownloadURL
    rw [hu]
    simp only [htruthy, if_neg htruthy]
    unfold nTransform
    rw [hn]
    simp
  · intro dec nScript f u n msg hu htruthy hn hne hthrow
    unfold setDownloadURL
    rw [hu]
    simp only [if_neg htruthy]
    unfold nTransform
    rw [hn]
    simp [hne, hthrow]
  · intro formats dec nScript hex
    exact decipherFormats_error_of_mem_error dec nScript formats [] hex

/-- Witness for C3's amended statement: the no-script case leaves the url
intact, the throwing case fails the format, and the two-format list fails
as a whole. -/
theorem setDownloadURL_n_amended_witness :
    setDownloadURL (some identityDecScript) none fmtPlain =
      .ok { fmtPlain with
              url := some audioUrl,
              signatureCipher := none,
              cipher := none } ∧
    setDownloadURL (some identityDecScript) (some throwingNScript) fmtWithN =
      .error "n-transform exec failure" ∧
    (∃ msg2, decipherFormats [fmtWithN, fmtPlain] (some identityDecScript)
        (some throwingNScript) = .error msg2) :=
  ⟨setDownloadURL_n_amended.1 identityDecScript fmtPlain audioUrl
      rfl (by decide),
   setDownloadURL_n_amended.2.2.1 identityDecScript throwingNScript fmtWithN
      videoNUrl "abc" "n-transform exec failure"
      rfl (by decide) rfl (by decide) rfl,
   setDownloadURL_n_amended.2.2.2 [fmtWithN, fmtPlain]
      (some identityDecScript) (some throwingNScript)
      ⟨fmtWithN, by decide, "n-transform exec failure", rfl⟩⟩

/-! ## `getDashManifest` (`src/info.ts:671`)

The sax parser is event-driven; we embed the `onopentag` handler as a
fold over the manifest's open-tag events.  Attribute names are upper-cased
by `sax.parser(false)`; absent attributes are `none`. -/

/-- The XML attributes read by the DASH handler. -/
structure DashAttrs where
  idAttr : Option String := none
  bandwidth : Option String := none
  codecsAttr : Option String := none
  mimetype : Option String := none
  heightAttr : Option String := none
  widthAttr : Option String := none
  framerate : Option String := none
  audioSamplingRate : Option String := none
deriving DecidableEq, Repr

/-- An open-tag event seen by the handler. -/
inductive DashEvent where
  | adaptationSet (attrs : DashAttrs)
  | representation (attrs : DashAttrs)
  | otherTag
deriving Repr

/-- Template-literal rendering of a possibly-undefined attribute. -/
def attrStr (a : Option String) : String := a.getD "undefined"

/-- `parseInt(attr)`: an absent attribute stringifies to `"undefined"`,
which parses to `NaN`. -/
def parseIntAttr (a : Option String) : Option Int :=
  match a with
  | some s => jsParseInt s
  | none => none

/-- The `Format` synthesized for a `REPRESENTATION` element: manifest url,
itag, bitrate, mime type from the surrounding adaptation set, and either
video attributes (when `HEIGHT` is truthy) or the audio sampling rate. -/
def dashRepFormat (url : Url) (adaptationSet rep : DashAttrs) (itag : Int) : VideoFormat :=
  let base : VideoFormat :=
    { itag := itag,
      url := some url,
      bitrate := parseIntAttr rep.bandwidth,
      mimeType := some (attrStr adaptationSet.mimetype ++ "; codecs=\"" ++
        attrStr rep.codecsAttr ++ "\"") }
  match rep.heightAttr with
  | some h =>
    if h ≠ "" then
      { base with
          width := parseIntAttr rep.widthAttr,
          height := parseIntAttr rep.heightAttr,
          fps := parseIntAttr rep.framerate }
    else { base with audioSampleRate := rep.audioSamplingRate }
  | none => { base with audioSampleRate := rep.audioSamplingRate }

/-- The `parser.onopentag` handler: remember the current adaptation set's
attributes, and on each representation whose `ID` parses as an integer,
assign `formats[url] = …` — note the key is the (constant) manifest url. -/
def dashOnOpenTag (url : Url) (st : DashAttrs × List (Url × VideoFormat)) (ev : DashEvent) :
    DashAttrs × List (Url × VideoFormat) :=
  match ev with
  | .adaptationSet attrs => (attrs, st.2)
  | .otherTag => st
  | .representation attrs =>
    match parseIntAttr attrs.idAttr with
    | none => st
    | some itag => (st.1, recordSet st.2 url (dashRepFormat url st.1 attrs itag))

/-- `getDashManifest`: fold the handler over the manifest's open tags and
return the resulting `formats` record. -/
def getDashManifest (url : Url) (events : List DashEvent) : List (Url × VideoFormat) :=
  (events.foldl (dashOnOpenTag url) ({}, [])).2

/-- Characterization used by C8's amended statement: the adaptation-set
attributes in effect at, and the attributes and parsed itag of, the *last*
representation element whose `ID` parses as an integer. -/
def dashLastRep (cur : DashAttrs) : List DashEvent → Option (DashAttrs × DashAttrs × Int)
  | [] => none
  | ev :: rest =>
    match ev with
    | .adaptationSet a => dashLastRep a rest
    | .otherTag => dashLastRep cur rest
    | .representation attrs =>
      match dashLastRep cur rest with
      | some r => some r
      | none =>
        match parseIntAttr attrs.idAttr with
        | some itag => some (cur, attrs, itag)
        | none => none

theorem recordSet_overwrite {κ ν : Type} [BEq κ] [LawfulBEq κ]
    (r : List (κ × ν)) (k : κ) (v w : ν) :
    recordSet (recordSet r k v) k w = recordSet r k w := by
  by_cases h : (r.find? (fun p => p.1 == k)).isSome = true
  · obtain ⟨p0, hp0mem, hp0k⟩ := List.find?_isSome.mp h
    have h1 : recordSet r k v = r.map (fun p => if p.1 == k then (k, v) else p) := by
      unfold recordSet
      rw [if_pos h]
    have h2 : ((r.map (fun p => if p.1 == k then (k, v) else p)).find?
        (fun p => p.1 == k)).isSome = true := by
      rw [List.find?_isSome]
      exact ⟨(k, v), List.mem_map.mpr ⟨p0, hp0mem, by simp [hp0k]⟩, by simp⟩
    rw [h1]
    unfold recordSet
    rw [if_pos h2, if_pos h, List.map_map]
    apply List.map_congr_left
    intro p _
    by_cases hp : (p.1 == k) = true
    · simp [Function.comp, hp]
    · simp [Function.comp, hp]
  · have h1 : recordSet r k v = r ++ [(k, v)] := by
      unfold recordSet
      rw [if_neg h]
    have h2 : ((r ++ [(k, v)]).find? (fun p => p.1 == k)).isSome = true := by
      rw [List.find?_isSome]
      exact ⟨(k, v), by simp, by simp⟩
    have hnone : r.find? (fun p => p.1 == k) = none := by
      cases hf : r.find? (fun p => p.1 == k) with
      | none => rfl
      | some q => rw [hf] at h; simp at h
    have hall := List.find?_eq_none.mp hnone
    rw [h1]
    unfold recordSet
    rw [if_pos h2, if_neg h, List.map_append]
    have h3 : r.map (fun p => if p.1 == k then (k, w) else p) = r := by
      calc r.map (fun p => if p.1 == k then (k, w) else p)
          = r.map id := List.map_congr_left (fun p hp => by simp [hall p hp])
        _ = r := List.map_id r
    rw [h3]
    simp

/-- The DASH fold computes exactly the "last valid representation wins"
record: whatever was accumulated, the single `formats[url]` entry carries
the last representation whose `ID` parsed. -/
theorem dash_foldl_lastRep (url : Url) :
    ∀ (events : List DashEvent) (cur : DashAttrs) (acc : List (Url × VideoFormat)),
    (events.foldl (dashOnOpenTag url) (cur, acc)).2 =
      (match dashLastRep cur events with
       | some (a, rep, itag) => recordSet acc url (dashRepFormat url a rep itag)
       | none => acc) := by
  intro events
  induction events with
  | nil => intro cur acc; rfl
  | cons ev rest ih =>
    intro cur acc
    cases ev with
    | adaptationSet a =>
      rw [List.foldl_cons]
      exact ih a acc
    | otherTag =>
      rw [List.foldl_cons]
      exact ih cur acc
    | representation attrs =>
      rw [List.foldl_cons]
      cases hid : parseIntAttr attrs.idAttr with
      | none =>
        have hstep : dashOnOpenTag url (cur, acc) (.representation attrs) = (cur, acc) := by
          simp [dashOnOpenTag, hid]
        rw [hstep, ih cur acc]
        have hr : dashLastRep cur (DashEvent.representation attrs :: rest) =
            dashLastRep cur rest := by
          cases h : dashLastRep cur rest with
          | some r => simp [dashLastRep, h]
          | none => simp [dashLastRep, h, hid]
        rw [hr]
      | some itag =>
        have hstep : dashOnOpenTag url (cur, acc) (.representation attrs) =
            (cur, recordSet acc url (dashRepFormat url cur attrs itag)) := by
          simp [dashOnOpenTag, hid]
        rw [hstep, ih cur _]
        have hr : dashLastRep cur (DashEvent.representation attrs :: rest) =
            (match dashLastRep cur rest with
             | some r => some r
             | none => some (cur, attrs, itag)) := by
          cases h : dashLastRep cur rest with
          | some r => simp [dashLastRep, h]
          | none => simp [dashLastRep, h, hid]
        rw [hr]
        cases dashLastRep cur rest with
        | some r =>
          obtain ⟨a, rep, it⟩ := r
          simp [recordSet_overwrite]
        | none => simp

/-- An audio adaptation set. -/
def dashAudioSet : DashAttrs := { mimetype := some "audio/mp4" }

/-- A first audio representation, itag 140. -/
def dashRep140 : DashAttrs :=
  { idAttr := some "140", bandwidth := some "129000", codecsAttr := some "mp4a.40.2",
    audioSamplingRate := some "44100" }

/-- A second audio representation, itag 251. -/
def dashRep251 : DashAttrs :=
  { idAttr := some "251", bandwidth := some "160000", codecsAttr := some "opus",
    audioSamplingRate := some "48000" }

def dashManifestUrl : Url := { base := "https://manifest.example/dash.mpd" }

/-- A manifest with one adaptation set containing two representations. -/
def dashTwoRepEvents : List DashEvent :=
  [.adaptationSet dashAudioSet, .representation dashRep140, .representation dashRep251]

/-- C8 counterexample: a manifest with **two** representations whose IDs
parse as integer itags (140 and 251) synthesizes only **one** Format —
`formats[url]` uses the constant manifest url as the key, so the second
representation overwrites the first, and the survivor carries itag 251. -/
theorem getDashManifest_counterexample :
    (getDashManifest dashManifestUrl dashTwoRepEvents).length = 1 ∧
    getDashManifest dashManifestUrl dashTwoRepEvents =
      [(dashManifestUrl, dashRepFormat dashManifestUrl dashAudioSet dashRep251 251)] ∧
    (dashRepFormat dashManifestUrl dashAudioSet dashRep251 251).itag = 251 :=
  ⟨rfl, rfl, rfl⟩

/-- C8 amended: `getDashManifest` synthesizes at most one Format for the
whole manifest, keyed by the manifest url; the last representation element
whose `ID` parses as an integer wins, carrying its bitrate and either
width/height/framerate (video) or audio sampling rate (audio) together
with the surrounding adaptation set's mime type. -/
theorem getDashManifest_amended :
    (∀ (url : Url) (events : List DashEvent), (getDashManifest url events).length ≤ 1) ∧
    (∀ (url : Url) (events : List DashEvent),
        getDashManifest url events =
          (match dashLastRep {} events with
           | some (a, rep, itag) => [(url, dashRepFormat url a rep itag)]
           | none => [])) := by
  have key : ∀ (url : Url) (events : List DashEvent),
      getDashManifest url events =
        (match dashLastRep {} events with
         | some (a, rep, itag) => [(url, dashRepFormat url a rep itag)]
         | none => []) := by
    intro url events
    unfold getDashManifest
    rw [dash_foldl_lastRep url events {} []]
    cases dashLastRep {} events with
    | some r =>
      obtain ⟨a, rep, it⟩ := r
      rfl
    | none => rfl
  refine ⟨?_, key⟩
  intro url events
  rw [key url events]
  cases dashLastRep {} events with
  | some r =>
    obtain ⟨a, rep, it⟩ := r
    simp
  | none => simp

/-! ## Chunked downloads (`src/index.ts`, `downloadFromInfoCallback`)

`getNextChunk` issues one ranged request per window and schedules the next
window only from the completed request's `end` handler, so the windows
form a sequential list.  The recursion is modelled with explicit fuel (the
loop terminates because `end` advances by `dlChunkSize ≥ 1` per step). -/

/-- `options.range`; `stop` models `options.range.end`. -/
structure DlRange where
  start : Option ℕ := none
  stop : Option ℕ := none
deriving DecidableEq, Repr

/-- `dlChunkSize !== 0 && (!format.hasAudio || !format.hasVideo)`. -/
def shouldBeChunked (dlChunkSize : ℕ) (format : VideoFormat) : Bool :=
  dlChunkSize != 0 && (!format.hasAudio || !format.hasVideo)

/-- One requested byte window: `(start, some e)` is `Range: bytes=start-e`,
`(start, none)` is the open-ended `Range: bytes=start-`. -/
abbrev ByteWindow := ℕ × Option ℕ

/-- The `getNextChunk` loop when `options.range.end` is absent/falsy:
once `end ≥ contentLength`, `end` is zeroed, producing a final open-ended
request; otherwise request `[start, end]` and continue at `end + 1`. -/
def chunkLoopNoEnd : (fuel : ℕ) → (dlChunkSize contentLength start endv : ℕ) → List ByteWindow
  | 0, _, _, _, _ => []
  | fuel + 1, dlChunkSize, contentLength, start, endv =>
    if contentLength ≤ endv then [(start, none)]
    else (start, some endv) ::
      chunkLoopNoEnd fuel dlChunkSize contentLength (endv + 1) (endv + dlChunkSize)

/-- The `getNextChunk` loop when a truthy `options.range.end = R` is
given: `end` is clamped to `R`, and the loop stops when the clamped `end`
reaches `R` (or is zero, which yields an open-ended request). -/
def chunkLoopWithEnd : (fuel : ℕ) → (dlChunkSize rangeEnd start endv : ℕ) → List ByteWindow
  | 0, _, _, _, _ => []
  | fuel + 1, dlChunkSize, rangeEnd, start, endv =>
    let e := if rangeEnd < endv then rangeEnd else endv
    if e = 0 then [(start, none)]
    else if e = rangeEnd then [(start, some e)]
    else (start, some e) :: chunkLoopWithEnd fuel dlChunkSize rangeEnd (e + 1) (e + dlChunkSize)

/-- A `range.end` of `0` is falsy and behaves exactly as an absent one
(both the `contentLength` computation and every loop test use it
truthily). -/
def effectiveRangeEnd (range : Option DlRange) : Option ℕ :=
  match range.bind (·.stop) with
  | some 0 => none
  | x => x

/-- The windows requested by `downloadFromInfoCallback`'s chunked branch:
`start = options.range?.start || 0`, initial `end = start + dlChunkSize`,
and `contentLength` as computed by the source (`L` is
`parseInt(format.contentLength)`; note that with `range.start` given and
`range.end` absent the source subtracts `start` from it). -/
def requestedWindows (fuel dlChunkSize L : ℕ) (range : Option DlRange) : List ByteWindow :=
  let s0 := ((range.bind (·.start)).getD 0)
  match effectiveRangeEnd range with
  | some R => chunkLoopWithEnd fuel dlChunkSize R s0 (s0 + dlChunkSize)
  | none =>
    let cl := if range.isSome then L - s0 else L
    chunkLoopNoEnd fuel dlChunkSize cl s0 (s0 + dlChunkSize)

/-- The inclusive byte positions a ranged request delivers from an
`L`-byte resource: a closed window `[s, e]` yields `s … min e (L-1)`, an
open window `[s, ∞)` yields `s … L-1`. -/
def deliveredBytes (L : ℕ) : ByteWindow → List ℕ
  | (s, some e) => List.range' s (min (e + 1) L - s)
  | (s, none) => List.range' s (L - s)

/-- Each next window starts exactly one past the previous closed window's
end, and an open-ended window is always last. -/
def windowsSequential : List ByteWindow → Bool
  | (_, some e) :: (s', oe') :: rest => (s' == e + 1) && windowsSequential ((s', oe') :: rest)
  | (_, none) :: _ :: _ => false
  | _ => true

/-- The full requested byte range, as the claim states it: `[s0 … R]` for
an explicit (truthy) `range.end`, else the whole rest of the resource
`[s0 … L-1]`. -/
def requestedByteSeq (L : ℕ) (range : Option DlRange) : List ℕ :=
  let s0 := ((range.bind (·.start)).getD 0)
  match effectiveRangeEnd range with
  | some R => List.range' s0 (R + 1 - s0)
  | none => List.range' s0 (L - s0)

theorem range'_glue (s m n : ℕ) :
    List.range' s m ++ List.range' (s + m) n = List.range' s (m + n) := by
  have h := List.range'_append s m n 1
  simpa [Nat.add_comm] using h

theorem chunkLoopNoEnd_delivered (C cl L : ℕ) (hC : 1 ≤ C) (hclL : cl ≤ L) :
    ∀ (fuel s e : ℕ), cl ≤ e + fuel → s ≤ e →
      (chunkLoopNoEnd (fuel + 1) C cl s e).flatMap (deliveredBytes L) =
        List.range' s (L - s) := by
  intro fuel
  induction fuel with
  | zero =>
    intro s e hfe _
    unfold chunkLoopNoEnd
    rw [if_pos (by omega)]
    simp [deliveredBytes]
  | succ f ih =>
    intro s e hfe hse
    unfold chunkLoopNoEnd
    by_cases h : cl ≤ e
    · rw [if_pos h]
      simp [deliveredBytes]
    · rw [if_neg h]
      push_neg at h
      rw [List.flatMap_cons, ih (e + 1) (e + C) (by omega) (by omega)]
      simp only [deliveredBytes]
      have hmin : min (e + 1) L = e + 1 := by omega
      rw [hmin]
      have hglue := range'_glue s (e + 1 - s) (L - (e + 1))
      have hs : s + (e + 1 - s) = e + 1 := by omega
      rw [hs] at hglue
      rw [hglue]
      congr 1
      omega

theorem chunkLoopWithEnd_delivered (C R L : ℕ) (hC : 1 ≤ C) (hR : 1 ≤ R) (hRL : R < L) :
    ∀ (fuel s e : ℕ), R ≤ e + fuel → s ≤ e → 1 ≤ e →
      (chunkLoopWithEnd (fuel + 1) C R s e).flatMap (deliveredBytes L) =
        List.range' s (R + 1 - s) := by
  intro fuel
  induction fuel with
  | zero =>
    intro s e hfe hse he1
    unfold chunkLoopWithEnd
    have hclamp : (if R < e then R else e) = R := by
      by_cases h : R < e <;> simp [h] <;> omega
    rw [hclamp]
    rw [if_neg (by omega), if_pos rfl]
    simp only [List.flatMap_cons, List.flatMap_nil, List.append_nil, deliveredBytes]
    congr 1
    omega
  | succ f ih =>
    intro s e hfe hse he1
    unfold chunkLoopWithEnd
    by_cases h : R ≤ e
    · have hclamp : (if R < e then R else e) = R := by
        by_cases h2 : R < e <;> simp [h2] <;> omega
      rw [hclamp]
      rw [if_neg (by omega), if_pos rfl]
      simp only [List.flatMap_cons, List.flatMap_nil, List.append_nil, deliveredBytes]
      congr 1
      omega
    · push_neg at h
      have hclamp : (if R < e then R else e) = e := by
        rw [if_neg (by omega)]
      rw [hclamp]
      rw [if_neg (by omega), if_neg (by omega)]
      rw [List.flatMap_cons, ih (e + 1) (e + C) (by omega) (by omega) (by omega)]
      simp only [deliveredBytes]
      have hmin : min (e + 1) L = e + 1 := by omega
      rw [hmin]
      have hglue := range'_glue s (e + 1 - s) (R + 1 - (e + 1))
      have hs : s + (e + 1 - s) = e + 1 := by omega
      rw [hs] at hglue
      rw [hglue]
      congr 1
      omega

theorem chunkLoopNoEnd_head_start (C cl : ℕ) :
    ∀ (fuel s e : ℕ) (p : ByteWindow) (rest : List ByteWindow),
    chunkLoopNoEnd fuel C cl s e = p :: rest → p.1 = s := by
  intro fuel s e p rest h
  match fuel with
  | 0 => exact absurd h (by simp [chunkLoopNoEnd])
  | f + 1 =>
    unfold chunkLoopNoEnd at h
    by_cases hb : cl ≤ e
    · rw [if_pos hb] at h
      cases h
      rfl
    · rw [if_neg hb] at h
      cases h
      rfl

theorem chunkLoopWithEnd_head_start (C R : ℕ) :
    ∀ (fuel s e : ℕ) (p : ByteWindow) (rest : List ByteWindow),
    chunkLoopWithEnd fuel C R s e = p :: rest → p.1 = s := by
  intro fuel s e p rest h
  match fuel with
  | 0 => exact absurd h (by simp [chunkLoopWithEnd])
  | f + 1 =>
    unfold chunkLoopWithEnd at h
    by_cases h0 : (if R < e then R else e) = 0
    · rw [if_pos h0] at h
      cases h
      rfl
    · rw [if_neg h0] at h
      by_cases hR : (if R < e then R else e) = R
      · rw [if_pos hR] at h
        cases h
        rfl
      · rw [if_neg hR] at h
        cases h
        rfl

theorem chunkLoopNoEnd_sequential (C cl : ℕ) :
    ∀ (fuel s e : ℕ), windowsSequential (chunkLoopNoEnd fuel C cl s e) = true := by
  intro fuel
  induction fuel with
  | zero => intro s e; rfl
  | succ f ih =>
    intro s e
    unfold chunkLoopNoEnd
    by_cases h : cl ≤ e
    · rw [if_pos h]
      rfl
    · rw [if_neg h]
      cases hrest : chunkLoopNoEnd f C cl (e + 1) (e + C) with
      | nil => rfl
      | cons p t =>
        have hp := chunkLoopNoEnd_head_start C cl f (e + 1) (e + C) p t hrest
        obtain ⟨p1, p2⟩ := p
        subst hp
        simp only [windowsSequential, beq_self_eq_true, Bool.true_and]
        rw [← hrest]
        exact ih (e + 1) (e + C)

theorem chunkLoopWithEnd_sequential (C R : ℕ) :
    ∀ (fuel s e : ℕ), windowsSequential (chunkLoopWithEnd fuel C R s e) = true := by
  intro fuel
  induction fuel with
  | zero => intro s e; rfl
  | succ f ih =>
    intro s e
    unfold chunkLoopWithEnd
    by_cases h0 : (if R < e then R else e) = 0
    · rw [if_pos h0]
      rfl
    · rw [if_neg h0]
      by_cases hR : (if R < e then R else e) = R
      · rw [if_pos hR]
        rfl
      · rw [if_neg hR]
        cases hrest : chunkLoopWithEnd f C R ((if R < e then R else e) + 1)
            ((if R < e then R else e) + C) with
        | nil => rfl
        | cons p t =>
          have hp := chunkLoopWithEnd_head_start C R f _ _ p t hrest
          obtain ⟨p1, p2⟩ := p
          subst hp
          simp only [windowsSequential, beq_self_eq_true, Bool.true_and]
          rw [← hrest]
          exact ih _ _

/-- C7: for every chunked adaptive download (audio-only or video-only
format, `dlChunkSize ≥ 1`), the byte-range windows issued by
`getNextChunk` are strictly sequential — each next window starts exactly
one past the previous window's end (and is only requested from the
previous request's completion handler) — and the concatenation of the
delivered inclusive ranges equals exactly the full requested byte range,
with no gaps and no overlaps. -/
theorem chunked_download_ranges (format : VideoFormat) (C L fuel : ℕ)
    (range : Option DlRange)
    (hchunk : shouldBeChunked C format = true)
    (hC : 1 ≤ C)
    (hfuel : L + (effectiveRangeEnd range).getD 0 + 1 ≤ fuel)
    (hRL : ∀ R, effectiveRangeEnd range = some R → R < L) :
    (requestedWindows fuel C L range).flatMap (deliveredBytes L) = requestedByteSeq L range ∧
    windowsSequential (requestedWindows fuel C L range) = true := by
  obtain ⟨f, rfl⟩ : ∃ f, fuel = f + 1 := ⟨fuel - 1, by omega⟩
  unfold requestedWindows requestedByteSeq
  cases hre : effectiveRangeEnd range with
  | some R =>
    have hR1 : 1 ≤ R := by
      unfold effectiveRangeEnd at hre
      cases hstop : range.bind (·.stop) with
      | none => rw [hstop] at hre; exact absurd hre (by simp)
      | some v =>
        rw [hstop] at hre
        match v, hre with
        | v + 1, hre =>
          have hvr : v + 1 = R := Option.some.inj hre
          omega
    have hRL2 : R < L := hRL R hre
    have hf : R ≤ ((range.bind (·.start)).getD 0) + C + f := by
      rw [hre] at hfuel
      simp at hfuel
      omega
    refine ⟨?_, chunkLoopWithEnd_sequential C R (f + 1) _ _⟩
    exact chunkLoopWithEnd_delivered C R L hC hR1 hRL2 f _ _ hf (by omega) (by omega)
  | none =>
    have hcl : (if range.isSome then L - ((range.bind (·.start)).getD 0) else L) ≤ L := by
      by_cases hr : range.isSome <;> simp [hr] <;> omega
    have hf : (if range.isSome then L - ((range.bind (·.start)).getD 0) else L) ≤
        ((range.bind (·.start)).getD 0) + C + f := by
      rw [hre] at hfuel
      simp at hfuel
      by_cases hr : range.isSome <;> simp [hr] <;> omega
    refine ⟨?_, chunkLoopNoEnd_sequential C _ (f + 1) _ _⟩
    have h := chunkLoopNoEnd_delivered C
      (if range.isSome then L - ((range.bind (·.start)).getD 0) else L) L hC hcl
      f ((range.bind (·.start)).getD 0) (((range.bind (·.start)).getD 0) + C) hf
      (by omega)
    rw [h]

/-- Witness for C7: an audio-only format, chunk size 3, a 10-byte
resource, no explicit range. -/
theorem chunked_download_ranges_witness :
    (requestedWindows 20 3 10 none).flatMap (deliveredBytes 10) = requestedByteSeq 10 none ∧
    windowsSequential (requestedWindows 20 3 10 none) = true :=
  chunked_download_ranges { itag := 140, hasAudio := true, hasVideo := false } 3 10 20 none
    (by decide) (by decide) (by decide) (by intro R h; simp [effectiveRangeEnd] at h)

/-! ## `Cache` (`src/cache.ts`)

The TTL map stores promises.  A promise is modelled by its eventual
settlement (`Except`); the async observer IIFE that `getOrSet` spawns is
modelled as an explicit `observeSettled` transition that fires when the
stored promise settles, and the `setTimeout` eviction as an `expire`
transition. -/

namespace Cache

variable {κ ε α : Type} [BEq κ]

/-- The entry map (timeout handles carry no information here). -/
structure State (κ ε α : Type) where
  entries : List (κ × Except ε α) := []

/-- `Map.prototype.has`. -/
def has (st : State κ ε α) (k : κ) : Bool :=
  (st.entries.find? (fun p => p.1 == k)).isSome

/-- `get`: the entry's value, or `null` (`none`) when absent. -/
def get (st : State κ ε α) (k : κ) : Option (Except ε α) :=
  (st.entries.find? (fun p => p.1 == k)).map (·.2)

/-- `set`: overwrite or insert the entry (and re-arm its timeout). -/
def set (st : State κ ε α) (k : κ) (v : Except ε α) : State κ ε α :=
  { entries := recordSet st.entries k v }

/-- `delete`: remove the entry. -/
def delete (st : State κ ε α) (k : κ) : State κ ε α :=
  { entries := st.entries.filter (fun p => !(p.1 == k)) }

/-- `getOrSet(key, fn)`: return the cached value when present (invoking
the producer only when the cached value is `null`), else invoke the
producer, cache its promise and return it.  Result: (returned promise,
whether the producer was invoked, state after the call). -/
def getOrSet (st : State κ ε α) (k : κ) (producer : Except ε α) :
    Except ε α × Bool × State κ ε α :=
  if has st k then
    match get st k with
    | some v => (v, false, st)
    | none => (producer, true, st)
  else
    (producer, true, set st k producer)

/-- The async IIFE spawned by `getOrSet` on a fresh insert: when the
stored promise is observed to settle, a rejection deletes the key. -/
def observeSettled (st : State κ ε α) (k : κ) (p : Except ε α) : State κ ε α :=
  match p with
  | .error _ => delete st k
  | .ok _ => st

/-- The `setTimeout(this.delete.bind(this, key), this.timeout)` eviction. -/
def expire (st : State κ ε α) (k : κ) : State κ ε α :=
  delete st k

end Cache

theorem recordSet_find_self {κ ν : Type} [BEq κ] [LawfulBEq κ]
    (r : List (κ × ν)) (k : κ) (v : ν) :
    (recordSet r k v).find? (fun p => p.1 == k) = some (k, v) := by
  unfold recordSet
  by_cases h : (r.find? (fun p => p.1 == k)).isSome = true
  · rw [if_pos h]
    induction r with
    | nil => simp at h
    | cons q t ih =>
      by_cases hq : (q.1 == k) = true
      · simp [List.find?_cons, hq]
      · rw [List.map_cons]
        have hq2 : ((if q.1 == k then (k, v) else q).1 == k) = false := by
          simp [hq]
        rw [List.find?_cons_of_neg _ (by simp [hq2])]
        apply ih
        rw [List.find?_cons_of_neg _ (by simp [hq])] at h
        exact h
  · rw [if_neg h]
    induction r with
    | nil => simp
    | cons q t ih =>
      have hq : (q.1 == k) = false := by
        by_cases hq0 : (q.1 == k) = true
        · exfalso
          apply h
          have hfind : List.find? (fun p => p.1 == k) (q :: t) = some q :=
            List.find?_cons_of_pos t hq0
          rw [hfind]
          rfl
        · simpa using hq0
      rw [List.cons_append, List.find?_cons_of_neg _ (by simp [hq])]
      apply ih
      intro hsome
      apply h
      rw [List.find?_cons_of_neg _ (by simp [hq])]
      exact hsome

theorem cache_delete_has {κ ε α : Type} [BEq κ] [LawfulBEq κ]
    (st : Cache.State κ ε α) (k : κ) :
    Cache.has (Cache.delete st k) k = false := by
  unfold Cache.has Cache.delete
  have hnone : List.find? (fun p => p.1 == k)
      (st.entries.filter (fun p => !(p.1 == k))) = none := by
    rw [List.find?_eq_none]
    intro p hp
    have h2 := (List.mem_filter.mp hp).2
    simp only [Bool.not_eq_true'] at h2
    simp [h2]
  rw [hnone]
  rfl

/-- A `getOrSet` on an absent key invokes the producer and caches it. -/
theorem getOrSet_fresh {κ ε α : Type} [BEq κ] (st : Cache.State κ ε α) (k : κ)
    (p : Except ε α) (h : Cache.has st k = false) :
    Cache.getOrSet st k p = (p, true, Cache.set st k p) := by
  unfold Cache.getOrSet
  rw [if_neg (by simp [h])]

/-- A `getOrSet` on a cached key returns the cached promise untouched. -/
theorem getOrSet_hit {κ ε α : Type} [BEq κ] (st : Cache.State κ ε α) (k : κ)
    (p cached : Except ε α) (hhas : Cache.has st k = true)
    (hget : Cache.get st k = some cached) :
    Cache.getOrSet st k p = (cached, false, st) := by
  unfold Cache.getOrSet
  rw [if_pos hhas, hget]

/-- C10: when a fresh `getOrSet` caches a producer promise that later
rejects, observing the rejection deletes the entry, so a subsequent
`getOrSet` for the same key invokes its producer again instead of
returning the cached rejected promise; a fulfilled promise instead stays
cached (until TTL expiry evicts it). -/
theorem getOrSet_rejection_evicts {κ ε α : Type} [BEq κ] [LawfulBEq κ]
    (st : Cache.State κ ε α) (k : κ) (p1 p2 : Except ε α) (h : Cache.has st k = false) :
    ((∃ e, p1 = .error e) →
      (Cache.getOrSet st k p1).1 = p1 ∧ (Cache.getOrSet st k p1).2.1 = true ∧
      Cache.has (Cache.observeSettled (Cache.getOrSet st k p1).2.2 k p1) k = false ∧
      (Cache.getOrSet (Cache.observeSettled (Cache.getOrSet st k p1).2.2 k p1) k p2).1 = p2 ∧
      (Cache.getOrSet (Cache.observeSettled (Cache.getOrSet st k p1).2.2 k p1) k p2).2.1 = true) ∧
    ((∃ v, p1 = .ok v) →
      Cache.has (Cache.observeSettled (Cache.getOrSet st k p1).2.2 k p1) k = true ∧
      (Cache.getOrSet (Cache.observeSettled (Cache.getOrSet st k p1).2.2 k p1) k p2).1 = p1 ∧
      (Cache.getOrSet (Cache.observeSettled (Cache.getOrSet st k p1).2.2 k p1) k p2).2.1 = false ∧
      Cache.has (Cache.expire (Cache.observeSettled (Cache.getOrSet st k p1).2.2 k p1) k) k =
        false) := by
  have hfresh := getOrSet_fresh st k p1 h
  have hstate : (Cache.getOrSet st k p1).2.2 = Cache.set st k p1 := by
    rw [hfresh]
  have hsetfind : (Cache.set st k p1).entries.find? (fun p => p.1 == k) = some (k, p1) :=
    recordSet_find_self st.entries k p1
  constructor
  · rintro ⟨e, rfl⟩
    have hS : Cache.observeSettled (Cache.getOrSet st k (Except.error e)).2.2 k
        (Except.error e) = Cache.delete (Cache.set st k (Except.error e)) k := by
      rw [hstate]
      rfl
    have hdel : Cache.has (Cache.observeSettled (Cache.getOrSet st k (Except.error e)).2.2 k
        (Except.error e)) k = false := by
      rw [hS]
      exact cache_delete_has _ _
    refine ⟨by rw [hfresh], by rw [hfresh], hdel, ?_, ?_⟩
    · rw [getOrSet_fresh _ k p2 hdel]
    · rw [getOrSet_fresh _ k p2 hdel]
  · rintro ⟨v, rfl⟩
    have hS : Cache.observeSettled (Cache.getOrSet st k (Except.ok v)).2.2 k
        (Except.ok v) = Cache.set st k (Except.ok v) := by
      rw [hstate]
      rfl
    have hhas : Cache.has (Cache.set st k (Except.ok v)) k = true := by
      unfold Cache.has
      rw [hsetfind]
      rfl
    have hget : Cache.get (Cache.set st k (Except.ok v)) k = some (Except.ok v) := by
      unfold Cache.get
      rw [hsetfind]
      rfl
    refine ⟨by rw [hS]; exact hhas, ?_, ?_, ?_⟩
    · rw [hS, getOrSet_hit _ k p2 (Except.ok v) hhas hget]
    · rw [hS, getOrSet_hit _ k p2 (Except.ok v) hhas hget]
    · rw [hS]
      exact cache_delete_has _ _

/-- Witness for C10 with a one-key string cache. -/
theorem getOrSet_rejection_evicts_witness :
    ((∃ e, (Except.error "boom" : Except String ℕ) = .error e) →
      (Cache.getOrSet ({} : Cache.State String String ℕ) "k" (.error "boom")).1 = .error "boom" ∧
      (Cache.getOrSet ({} : Cache.State String String ℕ) "k" (.error "boom")).2.1 = true ∧
      Cache.has (Cache.observeSettled
        (Cache.getOrSet ({} : Cache.State String String ℕ) "k" (.error "boom")).2.2 "k"
        (.error "boom")) "k" = false ∧
      (Cache.getOrSet (Cache.observeSettled
        (Cache.getOrSet ({} : Cache.State String String ℕ) "k" (.error "boom")).2.2 "k"
        (.error "boom")) "k" (.ok 7)).1 = .ok 7 ∧
      (Cache.getOrSet (Cache.observeSettled
        (Cache.getOrSet ({} : Cache.State String String ℕ) "k" (.error "boom")).2.2 "k"
        (.error "boom")) "k" (.ok 7)).2.1 = true) ∧
    ((∃ v, (Except.error "boom" : Except String ℕ) = .ok v) →
      Cache.has (Cache.observeSettled
        (Cache.getOrSet ({} : Cache.State String String ℕ) "k" (.error "boom")).2.2 "k"
        (.error "boom")) "k" = true ∧
      (Cache.getOrSet (Cache.observeSettled
        (Cache.getOrSet ({} : Cache.State String String ℕ) "k" (.error "boom")).2.2 "k"
        (.error "boom")) "k" (.ok 7)).1 = .error "boom" ∧
      (Cache.getOrSet (Cache.observeSettled
        (Cache.getOrSet ({} : Cache.State String String ℕ) "k" (.error "boom")).2.2 "k"
        (.error "boom")) "k" (.ok 7)).2.1 = false ∧
      Cache.has (Cache.expire (Cache.observeSettled
        (Cache.getOrSet ({} : Cache.State String String ℕ) "k" (.error "boom")).2.2 "k"
        (.error "boom")) "k") "k" = false) :=
  getOrSet_rejection_evicts {} "k" (.error "boom") (.ok 7) rfl

/-! ## Player responses, playability preflight and `getInfo` reconciliation
(`src/utils.ts` `playError`, `src/info.ts` `getBasicInfo`/`getInfo`) -/

/-- The playability block of a player response. -/
structure Playability where
  status : Option String := none
  reason : Option String := none
  messages : Option (List String) := none
deriving DecidableEq, Repr

/-- The part of `videoDetails` the resolver reads. -/
structure VideoDetails where
  videoId : Option String := none
deriving DecidableEq, Repr

/-- `streamingData`: the format arrays and manifest urls. -/
structure StreamingData where
  formats : List VideoFormat := []
  adaptiveFormats : List VideoFormat := []
  dashManifestUrl : Option Url := none
  hlsManifestUrl : Option Url := none
deriving DecidableEq, Repr

/-- A (parsed) player API / watch-page player response. -/
structure PlayerResponse where
  playabilityStatus : Option Playability := none
  videoDetails : Option VideoDetails := none
  streamingData : Option StreamingData := none
deriving DecidableEq, Repr

/-- A thrown JS error, as `(name, message)`. -/
structure JsError where
  name : String
  message : String
deriving DecidableEq, Repr

/-- `playError(player_response)`: an `UnrecoverableError` for the
unplayable statuses, `null` otherwise. -/
def playError (player_response : Option PlayerResponse) : Option JsError :=
  match player_response.bind (·.playabilityStatus) with
  | none => none
  | some playability =>
    if playability.status.getD "" = "ERROR" ∨ playability.status.getD "" = "LOGIN_REQUIRED" then
      some { name := "UnrecoverableError",
             message := (jsOrStr playability.reason
               (jsOrStr (playability.messages.bind List.head?)
                 (some "Unknown error"))).getD "Unknown error" }
    else if playability.status = some "LIVE_STREAM_OFFLINE" then
      some { name := "UnrecoverableError",
             message := (jsOrStr playability.reason
               (some "The live stream is offline.")).getD "The live stream is offline." }
    else if playability.status = some "UNPLAYABLE" then
      some { name := "UnrecoverableError",
             message := (jsOrStr playability.reason
               (some "This video is unavailable.")).getD "This video is unavailable." }
    else none

/-- `parseFormats`: `streamingData.formats ++ streamingData.adaptiveFormats`. -/
def parseFormats (player_response : Option PlayerResponse) : List VideoFormat :=
  match player_response.bind (·.streamingData) with
  | none => []
  | some sd => sd.formats ++ sd.adaptiveFormats

/-- `parseAdditionalManifests`: one pending format record per manifest url
present; the environment functions stand for the `getDashManifest` /
`getM3U8` fetches. -/
def parseAdditionalManifests (player_response : Option PlayerResponse)
    (dashFetch hlsFetch : Url → List (Url × VideoFormat)) :
    List (List (Url × VideoFormat)) :=
  match player_response.bind (·.streamingData) with
  | none => []
  | some sd =>
    (match sd.dashManifestUrl with | some u => [dashFetch u] | none => []) ++
    (match sd.hlsManifestUrl with | some u => [hlsFetch u] | none => [])

/-- `Object.assign({}, ...results)`: later records' keys override. -/
def objectAssign (records : List (List (Url × VideoFormat))) : List (Url × VideoFormat) :=
  records.foldl (fun acc r => r.foldl (fun acc2 p => recordSet acc2 p.1 p.2) acc) []

/-- Processing of the selected player response in `getInfo`: decipher its
formats, merge in the manifest records, keep `Object.values`, filter to
formats carrying both a url and a mime type, and fail when none remain. -/
def processPlayerResponse (decipherScript nTransformScript : Option Script)
    (dashFetch hlsFetch : Url → List (Url × VideoFormat))
    (pr : Option PlayerResponse) : Except String (List VideoFormat) :=
  match decipherFormats (parseFormats pr) decipherScript nTransformScript with
  | .error e => .error e
  | .ok deciphered =>
    let merged := objectAssign (deciphered :: parseAdditionalManifests pr dashFetch hlsFetch)
    let filtered := (merged.map (·.2)).filter
      (fun f => urlTruthy f.url && (f.mimeType.getD "" != ""))
    if filtered.isEmpty then .error "No playable formats found" else .ok filtered

/-- The source-selection core of `getInfo` (`src/info.ts:330-381`):
`bestPlayerResponse` is the **first fulfilled** device-profile response;
only when there is none and `WEB` is enabled is the base web watch-page
response processed; with neither, `funcs` stays empty and getInfo throws. -/
def reconcileFormats (decipherScript nTransformScript : Option Script)
    (dashFetch hlsFetch : Url → List (Url × VideoFormat))
    (settledDeviceResponses : List (Except JsError PlayerResponse))
    (webEnabled : Bool) (webPlayerResponse : Option PlayerResponse) :
    Except String (List VideoFormat) :=
  match (settledDeviceResponses.filterMap Except.toOption).head? with
  | some r => processPlayerResponse decipherScript nTransformScript dashFetch hlsFetch (some r)
  | none =>
    if webEnabled then
      processPlayerResponse decipherScript nTransformScript dashFetch hlsFetch
        webPlayerResponse
    else .error "Failed to find any playable formats"

/-- A device-profile response that validates (it has a matching video id,
an OK playability status) but carries zero formats. -/
def emptyDeviceResponse : PlayerResponse :=
  { videoDetails := some { videoId := some "vid" } }

/-- A usable base-web format (url and mime type present). -/
def goodWebFormat : VideoFormat :=
  { itag := 18, url := some { base := "https://web18" }, mimeType := some "video/mp4" }

/-- A base web player response carrying one usable format. -/
def webResponseWithFormat : PlayerResponse :=
  { streamingData := some { formats := [goodWebFormat] } }

/-- C1 counterexample: one *fulfilled but format-less* device-profile
response and a base web response with a usable format — no device-profile
formats exist, yet the base web formats are **not** used as the fallback:
getInfo processes the empty device response and throws, even though
processing the web response (as it does when no device response
succeeded) yields the web format. -/
theorem getInfo_reconcile_counterexample :
    reconcileFormats none none (fun _ => []) (fun _ => [])
        [.ok emptyDeviceResponse] true (some webResponseWithFormat) =
      .error "No playable formats found" ∧
    parseFormats (some emptyDeviceResponse) = [] ∧
    reconcileFormats none none (fun _ => []) (fun _ => [])
        [] true (some webResponseWithFormat) = .ok [goodWebFormat] :=
  ⟨rfl, rfl, rfl⟩

theorem processPlayerResponse_ok_shape (dec n : Option Script)
    (dF hF : Url → List (Url × VideoFormat)) (pr : Option PlayerResponse)
    (fs : List VideoFormat)
    (h : processPlayerResponse dec n dF hF pr = .ok fs) :
    fs ≠ [] ∧ ∀ f ∈ fs, urlTruthy f.url = true ∧ (f.mimeType.getD "" != "") = true := by
  unfold processPlayerResponse at h
  cases hd : decipherFormats (parseFormats pr) dec n with
  | error e => rw [hd] at h; exact absurd h (by simp)
  | ok deciphered =>
    rw [hd] at h
    simp only at h
    split at h
    · exact absurd h (by simp)
    · rename_i hne
      have hfs : fs = (List.map (fun p => p.2)
          (objectAssign (deciphered :: parseAdditionalManifests pr dF hF))).filter
            (fun f => urlTruthy f.url && (f.mimeType.getD "" != "")) := by
        cases h
        rfl
      subst hfs
      refine ⟨by simpa [List.isEmpty_iff] using hne, ?_⟩
      intro f hf
      have hp := (List.mem_filter.mp hf).2
      exact ⟨(Bool.and_eq_true_iff.mp hp).1, (Bool.and_eq_true_iff.mp hp).2⟩

/-- C1 amended: reconciliation supersedes at *response* granularity — the
first fulfilled device-profile response is processed even when it has
zero formats (the base web response is then ignored entirely); the base
web response is processed only when no device-profile response was
fulfilled and the `WEB` client is enabled; with neither source,
`getInfo` throws `Failed to find any playable formats`; and a successful
result is always a non-empty list of usable (url- and mimeType-carrying)
formats — the `No playable formats found` error is thrown exactly when
the selected source yields zero usable formats. -/
theorem getInfo_reconcile_amended :
    (∀ (dec n : Option Script) (dF hF : Url → List (Url × VideoFormat))
        (settled : List (Except JsError PlayerResponse)) (webEnabled : Bool)
        (webPR : Option PlayerResponse),
        settled.filterMap Except.toOption ≠ [] →
        reconcileFormats dec n dF hF settled webEnabled webPR =
          reconcileFormats dec n dF hF settled false none) ∧
    (∀ (dec n : Option Script) (dF hF : Url → List (Url × VideoFormat))
        (settled : List (Except JsError PlayerResponse)) (webPR : Option PlayerResponse),
        settled.filterMap Except.toOption = [] →
        reconcileFormats dec n dF hF settled true webPR =
          processPlayerResponse dec n dF hF webPR) ∧
    (∀ (dec n : Option Script) (dF hF : Url → List (Url × VideoFormat))
        (settled : List (Except JsError PlayerResponse)) (webPR : Option PlayerResponse),
        settled.filterMap Except.toOption = [] →
        reconcileFormats dec n dF hF settled false webPR =
          .error "Failed to find any playable formats") ∧
    (∀ (dec n : Option Script) (dF hF : Url → List (Url × VideoFormat))
        (settled : List (Except JsError PlayerResponse)) (webEnabled : Bool)
        (webPR : Option PlayerResponse) (fs : List VideoFormat),
        reconcileFormats dec n dF hF settled webEnabled webPR = .ok fs →
        fs ≠ [] ∧ ∀ f ∈ fs, urlTruthy f.url = true ∧ (f.mimeType.getD "" != "") = true) := by
  refine ⟨?_, ?_, ?_, ?_⟩
  · intro dec n dF hF settled webEnabled webPR hne
    obtain ⟨r, rest, hcons⟩ := List.exists_cons_of_ne_nil hne
    unfold reconcileFormats
    rw [hcons]
    rfl
  · intro dec n dF hF settled webPR hnil
    unfold reconcileFormats
    rw [hnil]
    rfl
  · intro dec n dF hF settled webPR hnil
    unfold reconcileFormats
    rw [hnil]
    rfl
  · intro dec n dF hF settled webEnabled webPR fs h
    unfold reconcileFormats at h
    cases hh : (settled.filterMap Except.toOption).head? with
    | some r =>
      rw [hh] at h
      exact processPlayerResponse_ok_shape dec n dF hF (some r) fs h
    | none =>
      rw [hh] at h
      by_cases hw : webEnabled = true
      · rw [hw] at h
        simp only [if_true] at h
        exact processPlayerResponse_ok_shape dec n dF hF webPR fs h
      · rw [Bool.not_eq_true] at hw
        rw [hw] at h
        simp at h

/-- Witness for C1's amended statement at concrete inputs. -/
theorem getInfo_reconcile_amended_witness :
    reconcileFormats none none (fun _ => []) (fun _ => [])
        [.ok emptyDeviceResponse] true (some webResponseWithFormat) =
      reconcileFormats none none (fun _ => []) (fun _ => [])
        [.ok emptyDeviceResponse] false none ∧
    reconcileFormats none none (fun _ => []) (fun _ => [])
        [] true (some webResponseWithFormat) =
      processPlayerResponse none none (fun _ => []) (fun _ => [])
        (some webResponseWithFormat) ∧
    ([goodWebFormat] ≠ [] ∧ ∀ f ∈ [goodWebFormat],
        urlTruthy f.url = true ∧ (f.mimeType.getD "" != "") = true) :=
  ⟨getInfo_reconcile_amended.1 none none (fun _ => []) (fun _ => [])
      [.ok emptyDeviceResponse] true (some webResponseWithFormat) (by decide),
   getInfo_reconcile_amended.2.1 none none (fun _ => []) (fun _ => [])
      [] (some webResponseWithFormat) rfl,
   getInfo_reconcile_amended.2.2.2 none none (fun _ => []) (fun _ => [])
      [] true (some webResponseWithFormat) [goodWebFormat] rfl⟩

/-! ## The `getInfo` network trace (for the playability-preflight claim)

Network activity is recorded as an event list: `getBasicInfo` fetches the
watch page (through `retryFunc`) and checks `playError` before anything
else; only afterwards does `getInfo` resolve the player script and issue
the device-profile player API calls. -/

/-- A network interaction of the resolver. -/
inductive NetEvent where
  | watchPageFetch
  | embedPageFetch
  | devicePlayerCall (client : String)
deriving DecidableEq, Repr

/-- The environment `getInfo` runs against: the outcome of each watch-page
fetch attempt (the parsed `player_response`; `none` models a page with no
parseable response), the player-script url findable in the watch/embed
page, the device-profile API outcomes, the compiled scripts and the
manifest fetches. -/
structure InfoEnv where
  watchFetch : ℕ → Except FetchError (Option PlayerResponse)
  html5player : Option String := some "player.js"
  embedHtml5player : Option String := none
  deviceResult : String → Except JsError PlayerResponse := fun _ =>
    .error { name := "Error", message := "Malformed response from YouTube" }
  decipherScript : Option Script := none
  nTransformScript : Option Script := none
  dashFetch : Url → List (Url × VideoFormat) := fun _ => []
  hlsFetch : Url → List (Url × VideoFormat) := fun _ => []

/-- The options relevant to the trace: enabled player clients and the
retry policy. -/
structure InfoOptions where
  playerClients : List String := ["WEB_EMBEDDED", "IOS", "ANDROID", "TV"]
  maxRetries : ℕ := 3
  inc : ℕ := 500
  maxB : ℕ := 5000

/-- The errors `getInfo` can reject with. -/
inductive ResolutionError where
  | fetch (e : FetchError)
  | play (e : JsError)
  | other (msg : String)
deriving DecidableEq, Repr

/-- `getBasicInfo`: fetch the watch page with `retryFunc` (one event per
attempt), then run the playability preflight on the parsed
`player_response` (the metadata extras that follow involve no network). -/
def getBasicInfoTrace (env : InfoEnv) (options : InfoOptions) :
    Except ResolutionError (Option PlayerResponse) × List NetEvent :=
  let r := retryFunc env.watchFetch options.maxRetries options.inc options.maxB
  let events := List.replicate (r.2.length + 1) NetEvent.watchPageFetch
  match r.1 with
  | .error e => (.error (.fetch e), events)
  | .ok pr =>
    match playError pr with
    | some err => (.error (.play err), events)
    | none => (.ok pr, events)

/-- `getInfo`: `getBasicInfo` first (its playability error propagates
before anything below runs), then the player-script resolution (the watch
body is already cached; the embed page is fetched only when the script
url is still missing), then one player API call per enabled device
profile, then reconciliation. -/
def getInfoTrace (env : InfoEnv) (options : InfoOptions) :
    Except ResolutionError (List VideoFormat) × List NetEvent :=
  match getBasicInfoTrace env options with
  | (.error e, tr) => (.error e, tr)
  | (.ok webPR, tr) =>
    let html5 :=
      match env.html5player with
      | some p => (some p, tr)
      | none => (env.embedHtml5player, tr ++ [NetEvent.embedPageFetch])
    match html5.1 with
    | none => (.error (.other "Unable to find html5player file"), html5.2)
    | some _ =>
      let deviceClients := options.playerClients.filter
        (fun c => ["WEB_EMBEDDED", "TV", "IOS", "ANDROID"].contains c)
      let settled := deviceClients.map env.deviceResult
      let webEnabled := options.playerClients.contains "WEB"
      let res := reconcileFormats env.decipherScript env.nTransformScript
        env.dashFetch env.hlsFetch settled webEnabled webPR
      (res.mapError ResolutionError.other,
        html5.2 ++ deviceClients.map NetEvent.devicePlayerCall)

/-- A call whose first attempt succeeds is not retried. -/
theorem retryFunc_ok_first {α : Type} (func : ℕ → Except FetchError α)
    (mr inc maxB : ℕ) (v : α) (h : func 0 = .ok v) :
    retryFunc func mr inc maxB = (.ok v, []) := by
  unfold retryFunc retryFuncAux
  rw [h]

/-- Any error `playError` produces is an `UnrecoverableError`. -/
theorem playError_name (pr : Option PlayerResponse) (e : JsError)
    (h : playError pr = some e) : e.name = "UnrecoverableError" := by
  unfold playError at h
  split at h
  · exact absurd h (by simp)
  · split_ifs at h <;> (cases h; rfl)

/-- The four critical statuses always produce a playability error. -/
theorem playError_of_critical_status (pr : PlayerResponse) (pl : Playability) (s : String)
    (hpl : pr.playabilityStatus = some pl) (hs : pl.status = some s)
    (hcrit : s = "ERROR" ∨ s = "LOGIN_REQUIRED" ∨ s = "LIVE_STREAM_OFFLINE" ∨
      s = "UNPLAYABLE") :
    ∃ e, playError (some pr) = some e := by
  rcases hcrit with rfl | rfl | rfl | rfl <;>
    simp [playError, hpl, hs]

/-- C5: whenever the base web watch-page response carries one of the
critical playability statuses (`ERROR`, `LOGIN_REQUIRED`,
`LIVE_STREAM_OFFLINE`, `UNPLAYABLE`), resolution rejects with the
descriptive `UnrecoverableError` right after the (single, unretried)
watch-page fetch: the trace is exactly one watch-page fetch, so no
device-profile player API call is ever issued. -/
theorem playability_preflight_short_circuits (env : InfoEnv) (options : InfoOptions)
    (pr : PlayerResponse) (pl : Playability) (s : String)
    (hfetch : env.watchFetch 0 = .ok (some pr))
    (hpl : pr.playabilityStatus = some pl) (hs : pl.status = some s)
    (hcrit : s = "ERROR" ∨ s = "LOGIN_REQUIRED" ∨ s = "LIVE_STREAM_OFFLINE" ∨
      s = "UNPLAYABLE") :
    ∃ e, playError (some pr) = some e ∧ e.name = "UnrecoverableError" ∧
      getInfoTrace env options = (.error (.play e), [NetEvent.watchPageFetch]) ∧
      ∀ c, NetEvent.devicePlayerCall c ∉ (getInfoTrace env options).2 := by
  obtain ⟨e, he⟩ := playError_of_critical_status pr pl s hpl hs hcrit
  have hbasic : getBasicInfoTrace env options =
      (.error (.play e), [NetEvent.watchPageFetch]) := by
    unfold getBasicInfoTrace
    rw [retryFunc_ok_first env.watchFetch options.maxRetries options.inc options.maxB
      (some pr) hfetch]
    simp only [List.length_nil, List.replicate, he]
  have htrace : getInfoTrace env options = (.error (.play e), [NetEvent.watchPageFetch]) := by
    unfold getInfoTrace
    rw [hbasic]
  refine ⟨e, he, playError_name (some pr) e he, htrace, ?_⟩
  intro c
  rw [htrace]
  simp

/-- A web player response with `ERROR` playability. -/
def erroredWebResponse : PlayerResponse :=
  { playabilityStatus := some { status := some "ERROR", reason := some "Video unavailable" } }

/-- Witness for C5: a watch page whose player response has status `ERROR`. -/
theorem playability_preflight_short_circuits_witness :
    ∃ e, playError (some erroredWebResponse) = some e ∧ e.name = "UnrecoverableError" ∧
      getInfoTrace { watchFetch := fun _ => .ok (some erroredWebResponse) } {} =
        (.error (.play e), [NetEvent.watchPageFetch]) ∧
      ∀ c, NetEvent.devicePlayerCall c ∉
        (getInfoTrace { watchFetch := fun _ => .ok (some erroredWebResponse) } {}).2 :=
  playability_preflight_short_circuits { watchFetch := fun _ => .ok (some erroredWebResponse) }
    {} erroredWebResponse { status := some "ERROR", reason := some "Video unavailable" }
    "ERROR" rfl rfl rfl (Or.inl rfl)

end Ytdl
